import Mathlib

/-!
Verification development for the GITxR agent (a natural-language CLI front
end to the GitHub API).  The Python sources in src/cli.py, src/github_api.py
and src/llm_client.py are shallowly embedded below: Python values become the
inductive type PyVal, dictionaries become association lists (Python 3.7+
dicts preserve insertion order and hold unique keys), raised exceptions
become the Except monad, and the two remote collaborators (the GitHub API
and the LLM) become explicit oracle parameters.
-/

/-- Model of a Python value as it occurs in this program: None, booleans,
integers, strings, lists and string-keyed dictionaries. -/
inductive PyVal where
  | none : PyVal
  | bool : Bool → PyVal
  | int : Int → PyVal
  | str : String → PyVal
  | list : List PyVal → PyVal
  | dict : List (String × PyVal) → PyVal
deriving Repr

/-- Python truthiness: None and False are falsy, 0 is falsy, the empty
string, empty list and empty dict are falsy; everything else is truthy. -/
def pyTruthy : PyVal → Bool
  | PyVal.none => false
  | PyVal.bool b => b
  | PyVal.int n => n != 0
  | PyVal.str s => s != ""
  | PyVal.list xs => !xs.isEmpty
  | PyVal.dict xs => !xs.isEmpty

/-- Dictionaries are association lists; keys are unique in Python, so lookup
takes the first match. -/
abbrev PyDict := List (String × PyVal)

/-- Lookup of a key in a dictionary (Python d.get(k) without default is
modelled by composing with Option.getD PyVal.none). -/
def dictGet (d : PyDict) (k : String) : Option PyVal :=
  (d.find? (fun p => p.1 == k)).map (fun p => p.2)

/-- Python d[k] = v: replace the value if the key is present (keeping its
position, as CPython dicts do), otherwise append the new binding.  Keys are
unique in a Python dict, so replacing the first occurrence is exact. -/
def dictSet : PyDict → String → PyVal → PyDict
  | [], k, v => [(k, v)]
  | a :: as, k, v => if a.1 == k then (k, v) :: as else a :: dictSet as k v

/-- Python v.get(k, default) on an arbitrary value: dictionaries answer the
lookup, any other receiver raises AttributeError. -/
def pyDotGet (v : PyVal) (k : String) (dflt : PyVal) : Except String PyVal :=
  match v with
  | PyVal.dict d => Except.ok ((dictGet d k).getD dflt)
  | _ => Except.error ("AttributeError: object has no attribute get (key " ++ k ++ ")")

/-- Python v[k] on an arbitrary value: a dictionary with the key present
answers it, a dictionary without it raises KeyError, anything else raises
TypeError. -/
def pyGetItem (v : PyVal) (k : String) : Except String PyVal :=
  match v with
  | PyVal.dict d =>
      match dictGet d k with
      | Option.some x => Except.ok x
      | Option.none => Except.error ("KeyError: " ++ k)
  | _ => Except.error ("TypeError: object is not subscriptable (key " ++ k ++ ")")

/-- Total convenience lookup used only in theorem statements: the value of
key k in v when v is a dictionary holding k, and None otherwise. -/
def pyGetD (v : PyVal) (k : String) : PyVal :=
  match v with
  | PyVal.dict d => (dictGet d k).getD PyVal.none
  | _ => PyVal.none

/-- Python str() of a value, to the fidelity this program needs (it is
interpolated into messages and URLs). -/
def pyStr : PyVal → String
  | PyVal.none => "None"
  | PyVal.bool b => if b then "True" else "False"
  | PyVal.int n => toString n
  | PyVal.str s => s
  | PyVal.list _ => "[...]"
  | PyVal.dict _ => "\x7b...\x7d"

/-- Python equality between a value and a string literal, as every intent
comparison in execute_intent performs it: strings compare by contents, any
other value compares unequal. -/
def pyEqStr : PyVal → String → Bool
  | PyVal.str t, s => t == s
  | _, _ => false

/-- Lookup after update: the updated key answers the new value, every other
key is unaffected. -/
theorem dictGet_dictSet (d : PyDict) (k : String) (v : PyVal) (p : String) :
    dictGet (dictSet d k v) p = if p = k then Option.some v else dictGet d p := by
  induction d with
  | nil =>
    by_cases hpk : p = k
    · subst hpk
      simp [dictSet, dictGet, List.find?]
    · have hkp : (k == p) = false := by simpa using Ne.symm hpk
      simp [dictSet, dictGet, List.find?, hpk, hkp]
  | cons a as ih =>
    by_cases hak : a.1 = k
    · by_cases hpk : p = k
      · subst hpk
        simp [dictSet, dictGet, List.find?, hak]
      · have hkp : (k == p) = false := by simpa using Ne.symm hpk
        have hap : (a.1 == p) = false := by rw [hak]; simpa using Ne.symm hpk
        simp [dictSet, dictGet, List.find?, hak, hpk, hkp, hap]
    · by_cases hap : a.1 = p
      · have hpk : p ≠ k := fun h => hak (hap.trans h)
        simp [dictSet, dictGet, List.find?, hak, hap, hpk]
      · simp only [dictSet, dictGet, List.find?] at ih ⊢
        have hak2 : (a.1 == k) = false := by simpa using hak
        have hap2 : (a.1 == p) = false := by simpa using hap
        simp [hak2, hap2, ih]

/-!
Character-level string model.  Queries are Python strings, modelled as
List Char; the helpers below implement the Python string operations the
classifier uses (lower, the "in" containment test, split(sep, 1), strip,
replace(old, "")).
-/

/-- ASCII lower-casing of one character (Python str.lower on the ASCII
queries this program handles). -/
def pyLowerChar (c : Char) : Char :=
  if 65 ≤ c.toNat && c.toNat ≤ 90 then Char.ofNat (c.toNat + 32) else c

/-- Python str.lower. -/
def pyLower (s : List Char) : List Char := s.map pyLowerChar

/-- Does t occur at the head of s? -/
def startsW : List Char → List Char → Bool
  | _, [] => true
  | [], _ :: _ => false
  | a :: as, b :: bs => a == b && startsW as bs

/-- Python substring containment: t in s. -/
def hasSub : List Char → List Char → Bool
  | [], t => t.isEmpty
  | a :: as, t => startsW (a :: as) t || hasSub as t

/-- Python s.split(t, 1) for nonempty t, reported as the pieces before and
after the first occurrence of t, or none when t does not occur. -/
def breakAt : List Char → List Char → Option (List Char × List Char)
  | [], t => if t.isEmpty then Option.some ([], []) else Option.none
  | a :: as, t =>
    if startsW (a :: as) t then Option.some ([], (a :: as).drop t.length)
    else
      match breakAt as t with
      | Option.some pr => Option.some (a :: pr.1, pr.2)
      | Option.none => Option.none

/-- Python whitespace test (str.strip default set, to the fidelity these
queries need). -/
def isWS (c : Char) : Bool := c == ' ' || c == '\t' || c == '\n' || c == '\r'

/-- Python s.strip(). -/
def stripL (s : List Char) : List Char :=
  ((s.dropWhile isWS).reverse.dropWhile isWS).reverse

/-- Scanner for Python s.replace(t, ""): delete every non-overlapping
occurrence of t, scanning left to right.  The fuel argument only bounds the
scan so the recursion is structural; every step consumes at least one
character, so fuel s.length is always enough. -/
def replAllFuel (t : List Char) : Nat → List Char → List Char
  | _, [] => []
  | 0, s => s
  | fuel + 1, a :: as =>
    if t.isEmpty then a :: replAllFuel t fuel as
    else if startsW (a :: as) t then replAllFuel t fuel (as.drop (t.length - 1))
    else a :: replAllFuel t fuel as

/-- Python s.replace(t, ""). -/
def replAll (t s : List Char) : List Char := replAllFuel t s.length s

/-!
Embedding of GitXRCLI.is_list_repos_query, GitXRCLI.fallback_intent_detection
(src/cli.py lines 131-181) and the classification stage of
GitXRCLI.process_query (src/cli.py lines 76-95).  The LLM collaborator is an
oracle of type Except String PyVal: ok v when llm_client.process_query
returns the parsed value v, error e when it raises an exception with
message e.
-/

/-- Repo terms of src/cli.py lines 134 and 158 (the two lists coincide). -/
def repo_terms : List (List Char) :=
  ["repo", "repos", "repositories", "repository"].map String.toList

/-- Action terms of src/cli.py lines 135 and 159 (the two lists coincide). -/
def action_terms : List (List Char) :=
  ["list", "show", "get", "find", "display", "tell"].map String.toList

/-- GitXRCLI.is_list_repos_query, src/cli.py lines 131-144. -/
def is_list_repos_query (query : List Char) : Bool :=
  let q := pyLower query
  let has_repo_term := repo_terms.any (fun t => hasSub q t)
  let has_action_term := action_terms.any (fun t => hasSub q t)
  let has_of_pattern := hasSub q ("of ".toList)
  (has_repo_term && has_action_term) || (has_repo_term && has_of_pattern)

/-- GitXRCLI.fallback_intent_detection, src/cli.py lines 146-181.  The
username extraction models lines 151-156: query.split("of ", 1) always has
two pieces when "of " occurs, and the piece after the separator is stripped.
Python then tests the username with `if username:`, which is false both for
None and for the empty string. -/
def fallback_intent_detection (query : List Char) : PyVal :=
  let q := pyLower query
  let username : Option (List Char) :=
    if hasSub q ("of ".toList) then
      match breakAt q ("of ".toList) with
      | Option.some pr => Option.some (stripL pr.2)
      | Option.none => Option.none
    else Option.none
  if (action_terms.any (fun t => hasSub q t)) && (repo_terms.any (fun t => hasSub q t)) then
    match username with
    | Option.some u =>
        if u.isEmpty then
          PyVal.dict [("intent", PyVal.str "list_user_repositories"),
            ("parameters", PyVal.dict [])]
        else
          PyVal.dict [("intent", PyVal.str "list_user_repositories"),
            ("parameters", PyVal.dict [("username", PyVal.str (String.mk u))])]
    | Option.none =>
        PyVal.dict [("intent", PyVal.str "list_user_repositories"),
          ("parameters", PyVal.dict [])]
  else if ((["search", "find"].map String.toList).any (fun t => hasSub q t))
      && (repo_terms.any (fun t => hasSub q t)) then
    PyVal.dict [("intent", PyVal.str "search_repositories"),
      ("parameters", PyVal.dict [("query", PyVal.str (String.mk (stripL
        (replAll ("repositories".toList)
          (replAll ("repos".toList)
            (replAll ("find".toList)
              (replAll ("search".toList) q)))))))])]
  else
    PyVal.dict [("intent", PyVal.str "unknown"), ("parameters", PyVal.dict [])]

/-- The classification stage of GitXRCLI.process_query, src/cli.py lines
76-95: a fast-path hit goes straight to the deterministic fallback without
consulting the LLM; otherwise the LLM result is used when it is a mapping,
and any exception or non-mapping result degrades to the fallback. -/
def classify_stage (llm : Except String PyVal) (query : List Char) : PyVal :=
  if is_list_repos_query query then
    fallback_intent_detection query
  else
    match llm with
    | Except.ok v =>
        match v with
        | PyVal.dict _ => v
        | _ => fallback_intent_detection query
    | Except.error _ => fallback_intent_detection query

example : is_list_repos_query ("list repos of octocat".toList) = true := by decide
example : is_list_repos_query ("repos of octocat".toList) = true := by decide
example : is_list_repos_query ("weather today".toList) = false := by decide
example : fallback_intent_detection ("repos of octocat".toList)
    = PyVal.dict [("intent", PyVal.str "unknown"), ("parameters", PyVal.dict [])] := rfl
example : fallback_intent_detection ("list repos of octocat".toList)
    = PyVal.dict [("intent", PyVal.str "list_user_repositories"),
        ("parameters", PyVal.dict [("username", PyVal.str "octocat")])] := rfl
example : fallback_intent_detection ("search repositories machine learning".toList)
    = PyVal.dict [("intent", PyVal.str "search_repositories"),
        ("parameters", PyVal.dict [("query", PyVal.str "itories machine learning")])] := rfl

/-!
Embedding of GitXRCLI.get_required_params (src/cli.py lines 25-39) and
GitXRCLI.validate_and_complete_params (src/cli.py lines 41-69).  The
console input is an oracle: the list of strings the user will type, consumed
in order (Python blocks for each; an exhausted oracle answers the empty
string).  A call returns the updated parameter mapping together with the
observable side effects: the names of the prompted parameters, the
conversation turns appended to self.conversation_history, and whether the
non-dictionary warning was printed.
-/

/-- The intent_params table of GitXRCLI.get_required_params, src/cli.py
lines 28-37, in source order. -/
def intent_params : List (String × List (String × String)) :=
  [("get_contributors",
      [("owner", "repository owner/organization"), ("repo", "repository name")]),
   ("get_commit_history",
      [("owner", "repository owner/organization"), ("repo", "repository name")]),
   ("get_recent_merged_prs",
      [("owner", "repository owner/organization"), ("repo", "repository name")]),
   ("list_user_repositories", [("username", "GitHub username")]),
   ("get_user_repositories", [("username", "GitHub username")]),
   ("get_repositories", [("username", "GitHub username")]),
   ("search_repositories", [("query", "search term")]),
   ("unknown", [])]

/-- GitXRCLI.get_required_params, src/cli.py lines 25-39: table lookup with
default empty mapping. -/
def get_required_params (intent : String) : List (String × String) :=
  ((intent_params.find? (fun p => p.1 == intent)).map (fun p => p.2)).getD []

/-- One conversation turn: role and content. -/
abbrev ConvTurn := String × String

/-- The for-loop of src/cli.py lines 53-67: walk the required parameters in
table order; a parameter that is absent or falsy in the current mapping is
prompted for, the entered text is stored under the parameter name, and two
conversation turns are appended.  Returns the final mapping, the prompted
parameter names, and the appended turns. -/
def vcpLoop : List (String × String) → PyDict → List String →
    PyDict × List String × List ConvTurn
  | [], d, _ => (d, [], [])
  | (p, desc) :: rest, d, inputs =>
    match dictGet d p with
    | Option.some v =>
      if pyTruthy v then vcpLoop rest d inputs
      else
        let entered := inputs.headD ""
        let r := vcpLoop rest (dictSet d p (PyVal.str entered)) inputs.tail
        (r.1, p :: r.2.1,
          ("assistant", "Could you please provide the " ++ p ++ " (" ++ desc ++ ")?")
            :: ("user", entered) :: r.2.2)
    | Option.none =>
        let entered := inputs.headD ""
        let r := vcpLoop rest (dictSet d p (PyVal.str entered)) inputs.tail
        (r.1, p :: r.2.1,
          ("assistant", "Could you please provide the " ++ p ++ " (" ++ desc ++ ")?")
            :: ("user", entered) :: r.2.2)

/-- Result of a validate_and_complete_params call: the returned mapping and
the observable side effects. -/
structure VcpResult where
  params : PyDict
  prompted : List String
  history : List ConvTurn
  warned : Bool
deriving Repr

/-- GitXRCLI.validate_and_complete_params, src/cli.py lines 41-69: a
non-dictionary params argument is replaced by the empty mapping with a
warning (line 46-48); a dictionary argument is copied (line 50) and the
missing/falsy required parameters are filled in by prompting (lines 53-67).
-/
def validate_and_complete_params (intent : String) (params : PyVal)
    (inputs : List String) : VcpResult :=
  let required := get_required_params intent
  match params with
  | PyVal.dict d =>
      let r := vcpLoop required d inputs
      ⟨r.1, r.2.1, r.2.2, false⟩
  | _ =>
      let r := vcpLoop required [] inputs
      ⟨r.1, r.2.1, r.2.2, true⟩

example :
    (validate_and_complete_params "get_contributors"
      (PyVal.dict [("owner", PyVal.str "a"), ("repo", PyVal.str "b")]) []).params
      = [("owner", PyVal.str "a"), ("repo", PyVal.str "b")] := rfl
example :
    (validate_and_complete_params "get_contributors"
      (PyVal.dict [("owner", PyVal.str "a")]) ["r1"]).params
      = [("owner", PyVal.str "a"), ("repo", PyVal.str "r1")] := rfl
example :
    (validate_and_complete_params "get_contributors" (PyVal.list []) ["o", "r"]).warned
      = true := rfl

/-!
Embedding of GitXRCLI.execute_intent, src/cli.py lines 183-268.  The
collaborators reachable from the dispatch table are gathered in one oracle
structure: the five GitHub client calls it can make, and the
dataframe-conversion plus console-rendering step of each branch (modelled as
one failable unit-valued operation per branch, since those steps can raise
and their exceptions are caught at the same boundary).  The function takes
the intent_data record (annotated Dict in the source) and returns the
dictionary the Python function returns; every exception raised inside the
try block is caught at line 265 and turned into an error dictionary.
-/

/-- Python type name, for the messages that interpolate type(x). -/
def pyTypeName : PyVal → String
  | PyVal.none => "NoneType"
  | PyVal.bool _ => "bool"
  | PyVal.int _ => "int"
  | PyVal.str _ => "str"
  | PyVal.list _ => "list"
  | PyVal.dict _ => "dict"

/-- Digit-string parser for the int() builtin. -/
def parseDigitsAux : List Char → Nat → Option Nat
  | [], acc => Option.some acc
  | c :: cs, acc =>
    if c.isDigit then parseDigitsAux cs (acc * 10 + (c.toNat - 48)) else Option.none

/-- Nonempty all-digit strings denote a natural number. -/
def parseDigits (cs : List Char) : Option Nat :=
  if cs.isEmpty then Option.none else parseDigitsAux cs 0

/-- Python int(s) for a string s: surrounding whitespace is ignored, an
optional sign precedes a nonempty digit run; anything else raises
ValueError. -/
def pyIntOfStr (s : String) : Option Int :=
  match stripL s.toList with
  | '-' :: rest => (parseDigits rest).map (fun n => -(n : Int))
  | '+' :: rest => (parseDigits rest).map (fun n => (n : Int))
  | rest => (parseDigits rest).map (fun n => (n : Int))

/-- The int() builtin on a Python value: ints pass through, booleans become
0/1, strings are parsed (ValueError on a non-numeric literal), everything
else raises TypeError. -/
def pyIntCoerce : PyVal → Except String Int
  | PyVal.int n => Except.ok n
  | PyVal.bool b => Except.ok (if b then 1 else 0)
  | PyVal.str s =>
    match pyIntOfStr s with
    | Option.some n => Except.ok n
    | Option.none => Except.error ("invalid literal for int() with base 10: " ++ s)
  | v => Except.error
      ("int() argument must be a string, a bytes-like object or a real number, not "
        ++ pyTypeName v)

/-- The collaborators reachable from execute_intent: GitHub client calls and
the per-branch dataframe/console rendering step. -/
structure Collab where
  get_repository_contributors : PyVal → PyVal → Except String PyVal
  get_commit_history : PyVal → PyVal → PyVal → Int → Except String PyVal
  get_recent_merged_prs : PyVal → PyVal → Int → Except String PyVal
  get_user_repositories : PyVal → Except String PyVal
  search_repositories : PyVal → PyVal → Except String PyVal
  render_contributors : PyVal → Except String Unit
  render_commits : PyVal → Except String Unit
  render_prs : PyVal → Except String Unit
  render_repos : List PyVal → Except String Unit
  render_search : PyVal → Except String Unit

/-- One row of the simplified repository listing, src/cli.py lines 230-238:
item access raises KeyError on a missing key, description falls back through
.get to a default. -/
def build_repo_row (repo : PyVal) : Except String PyVal := do
  let name ← pyGetItem repo "name"
  let desc ← pyDotGet repo "description" (PyVal.str "No description")
  let stars ← pyGetItem repo "stargazers_count"
  let forks ← pyGetItem repo "forks_count"
  let upd ← pyGetItem repo "updated_at"
  let url ← pyGetItem repo "html_url"
  Except.ok (PyVal.dict [("Name", name), ("Description", desc), ("Stars", stars),
    ("Forks", forks), ("Last Updated", upd), ("URL", url)])

/-- The inner try of the repository-listing branch, src/cli.py lines
221-247: fetch, the empty-result message, the simplified-table rendering and
the unexpected-format warning.  Exceptions are caught by the caller at line
245. -/
def listReposInner (c : Collab) (username : PyVal) : Except String PyVal := do
  let data ← c.get_user_repositories username
  if !(pyTruthy data) then
    Except.ok (PyVal.dict [("repositories", PyVal.list []),
      ("message", PyVal.str ("No repositories found for " ++ pyStr username))])
  else
    match data with
    | PyVal.list l => do
        let rows ← l.mapM build_repo_row
        let _ ← c.render_repos rows
        Except.ok (PyVal.dict [("repositories", data)])
    | _ =>
        Except.ok (PyVal.dict [("error",
          PyVal.str ("Unexpected data format: <class " ++ pyTypeName data ++ ">"))])

/-- GitXRCLI.execute_intent, src/cli.py lines 183-268. -/
def execute_intent (c : Collab) (intent_data : PyDict) : PyVal :=
  let intent0 := (dictGet intent_data "intent").getD PyVal.none
  let params := (dictGet intent_data "parameters").getD (PyVal.dict [])
  let intent :=
    if pyEqStr intent0 "get_repositories" || pyEqStr intent0 "get_repos" then
      PyVal.str "list_user_repositories"
    else intent0
  let body : Except String PyVal :=
    if pyEqStr intent "get_contributors" then do
      let owner ← pyDotGet params "owner" PyVal.none
      let repo ← pyDotGet params "repo" PyVal.none
      let data ← c.get_repository_contributors owner repo
      let _ ← c.render_contributors data
      Except.ok (PyVal.dict [("contributors", data)])
    else if pyEqStr intent "get_commit_history" then do
      let branch ← pyDotGet params "branch" (PyVal.str "main")
      let countV ← pyDotGet params "count" (PyVal.int 10)
      let count ← pyIntCoerce countV
      let owner ← pyDotGet params "owner" PyVal.none
      let repo ← pyDotGet params "repo" PyVal.none
      let data ← c.get_commit_history owner repo branch count
      let _ ← c.render_commits data
      Except.ok (PyVal.dict [("commits", data)])
    else if pyEqStr intent "get_recent_merged_prs" then do
      let countV ← pyDotGet params "count" (PyVal.int 10)
      let count ← pyIntCoerce countV
      let owner ← pyDotGet params "owner" PyVal.none
      let repo ← pyDotGet params "repo" PyVal.none
      let data ← c.get_recent_merged_prs owner repo count
      let _ ← c.render_prs data
      Except.ok (PyVal.dict [("pull_requests", data)])
    else if pyEqStr intent "list_user_repositories"
        || pyEqStr intent "get_user_repositories" then do
      let username ← pyDotGet params "username" PyVal.none
      if !(pyTruthy username) then
        Except.ok (PyVal.dict [("error", PyVal.str "No username provided")])
      else
        Except.ok (match listReposInner c username with
          | Except.ok v => v
          | Except.error e => PyVal.dict [("error", PyVal.str e)])
    else if pyEqStr intent "search_repositories" then do
      let q ← pyDotGet params "query" PyVal.none
      let srt ← pyDotGet params "sort" (PyVal.str "stars")
      let data ← c.search_repositories q srt
      let items :=
        match data with
        | PyVal.dict d => (dictGet d "items").getD (PyVal.list [])
        | _ => data
      let _ ← c.render_search items
      Except.ok (PyVal.dict [("search_results", data)])
    else if pyEqStr intent "unknown" then
      Except.ok (PyVal.dict [("error", PyVal.str "Unknown intent"),
        ("query", (dictGet intent_data "query").getD (PyVal.str ""))])
    else
      Except.ok (PyVal.dict [("error", PyVal.str ("Unhandled intent: " ++ pyStr intent))])
  match body with
  | Except.ok v => v
  | Except.error e => PyVal.dict [("error", PyVal.str e)]

/-!
Embedding of GitHubAPIClient.get_recent_merged_prs, src/github_api.py lines
68-78.  The _get helper (lines 21-25) is the oracle: endpoint and request
parameters in, parsed JSON out, with transport or HTTP failures raised as
exceptions.
-/

/-- Python iteration over a value: lists yield their items, dicts their
keys, strings their characters; other values raise TypeError. -/
def pyIter : PyVal → Except String (List PyVal)
  | PyVal.list l => Except.ok l
  | PyVal.dict d => Except.ok (d.map (fun p => PyVal.str p.1))
  | PyVal.str s => Except.ok (s.toList.map (fun ch => PyVal.str (String.mk [ch])))
  | v => Except.error ("TypeError: " ++ pyTypeName v ++ " object is not iterable")

/-- The for-loop of src/github_api.py lines 73-76: keep only page items with
a truthy merged_at field, and re-fetch full detail for each survivor.
Exception propagation is written as explicit matches on each fallible
step. -/
def grmpLoop (getFn : String → PyDict → Except String PyVal) (owner repo : String) :
    List PyVal → Except String (List PyVal)
  | [] => Except.ok []
  | pr :: rest =>
    match pyDotGet pr "merged_at" PyVal.none with
    | Except.error e => Except.error e
    | Except.ok m =>
      if pyTruthy m then
        match pyGetItem pr "number" with
        | Except.error e => Except.error e
        | Except.ok n =>
          match getFn ("/repos/" ++ owner ++ "/" ++ repo ++ "/pulls/" ++ pyStr n) [] with
          | Except.error e => Except.error e
          | Except.ok details =>
            match grmpLoop getFn owner repo rest with
            | Except.error e => Except.error e
            | Except.ok tail => Except.ok (details :: tail)
      else
        grmpLoop getFn owner repo rest

/-- GitHubAPIClient.get_recent_merged_prs, src/github_api.py lines 68-78. -/
def get_recent_merged_prs (getFn : String → PyDict → Except String PyVal)
    (owner repo : String) (count : Int) : Except String PyVal :=
  match getFn ("/repos/" ++ owner ++ "/" ++ repo ++ "/pulls")
      [("state", PyVal.str "closed"), ("per_page", PyVal.int count)] with
  | Except.error e => Except.error e
  | Except.ok prs =>
    match pyIter prs with
    | Except.error e => Except.error e
    | Except.ok items =>
      match grmpLoop getFn owner repo items with
      | Except.error e => Except.error e
      | Except.ok merged => Except.ok (PyVal.list merged)

/-!
Heap-instrumented view of validate_and_complete_params for the aliasing
claim.  Python dictionaries are mutable objects: the heap is a list of
dictionary cells indexed by address, params.copy() at src/cli.py line 50
allocates a fresh cell holding the same bindings, and the assignments at
line 57 write only to that fresh cell.
-/

/-- A heap of dictionary objects; the address is the index. -/
abbrev Heap := List PyDict

/-- Read the dictionary cell at an address. -/
def heapGet (h : Heap) (a : Nat) : PyDict := h.getD a []

/-- The for-loop of src/cli.py lines 53-67, acting on the heap cell b that
holds updated_params. -/
def vcpLoopH : List (String × String) → Heap → Nat → List String → Heap
  | [], h, _, _ => h
  | (p, _) :: rest, h, b, inputs =>
    match dictGet (heapGet h b) p with
    | Option.some v =>
      if pyTruthy v then vcpLoopH rest h b inputs
      else
        vcpLoopH rest (h.set b (dictSet (heapGet h b) p (PyVal.str (inputs.headD ""))))
          b inputs.tail
    | Option.none =>
        vcpLoopH rest (h.set b (dictSet (heapGet h b) p (PyVal.str (inputs.headD ""))))
          b inputs.tail

/-- GitXRCLI.validate_and_complete_params on the heap, for a dictionary
argument living at address a: line 50 allocates the copy at the fresh
address h.length, the loop then writes only there, and the address of the
returned mapping is the fresh one. -/
def validate_and_complete_params_heap (intent : String) (h : Heap) (a : Nat)
    (inputs : List String) : Heap × Nat :=
  let b := h.length
  let h1 := h ++ [heapGet h a]
  (vcpLoopH (get_required_params intent) h1 b inputs, b)

/-!
Helpers used only to phrase theorem statements.
-/

/-- Truthiness of an optional lookup, matching the Python test at src/cli.py
line 54: a missing key reads as None, hence falsy. -/
def truthyOpt (o : Option PyVal) : Bool := pyTruthy (o.getD PyVal.none)

/-- Is the value a Python dict? -/
def isDictB : PyVal → Bool
  | PyVal.dict _ => true
  | _ => false

/-- Does the value carry an intent field that is a nonempty string? -/
def hasNonemptyIntent : PyVal → Bool
  | PyVal.dict d =>
    match dictGet d "intent" with
    | Option.some (PyVal.str s) => s != ""
    | _ => false
  | _ => false

/-- Does a result dictionary carry an error key? -/
def hasErrKey : PyVal → Bool
  | PyVal.dict d => (dictGet d "error").isSome
  | _ => false

/-!
Supporting lemmas.
-/

/-- When every required parameter is already present and truthy, the
completion loop does nothing. -/
theorem vcpLoop_all_truthy (reqs : List (String × String)) (d : PyDict)
    (inputs : List String)
    (h : ∀ pd ∈ reqs, truthyOpt (dictGet d pd.1) = true) :
    vcpLoop reqs d inputs = (d, [], []) := by
  induction reqs with
  | nil => rfl
  | cons pd rest ih =>
    obtain ⟨p, desc⟩ := pd
    have hp : truthyOpt (dictGet d p) = true := h (p, desc) (List.mem_cons_self _ _)
    cases hd : dictGet d p with
    | none => rw [hd] at hp; simp [truthyOpt, pyTruthy] at hp
    | some v =>
      rw [hd] at hp
      simp only [truthyOpt, Option.getD] at hp
      simp only [vcpLoop, hd, hp, if_true]
      exact ih (fun q hq => h q (List.mem_cons_of_mem _ hq))

/-- Every key that is required, or already present, is present in the
mapping the completion loop returns. -/
theorem vcpLoop_isSome (reqs : List (String × String)) (d : PyDict)
    (inputs : List String) (p : String)
    (h : p ∈ reqs.map Prod.fst ∨ (dictGet d p).isSome = true) :
    (dictGet (vcpLoop reqs d inputs).1 p).isSome = true := by
  induction reqs generalizing d inputs with
  | nil =>
    rcases h with h | h
    · simp at h
    · simpa [vcpLoop] using h
  | cons pd rest ih =>
    obtain ⟨q, desc⟩ := pd
    by_cases hpq : p = q
    · subst hpq
      cases hd : dictGet d p with
      | some v =>
        cases htr : pyTruthy v with
        | true =>
          simp only [vcpLoop, hd, htr, if_true]
          exact ih d inputs (Or.inr (by simp [hd]))
        | false =>
          simp only [vcpLoop, hd, htr, Bool.false_eq_true, if_false]
          exact ih _ inputs.tail (Or.inr (by simp [dictGet_dictSet]))
      | none =>
        simp only [vcpLoop, hd]
        exact ih _ inputs.tail (Or.inr (by simp [dictGet_dictSet]))
    · have h2 : p ∈ rest.map Prod.fst ∨ (dictGet d p).isSome = true := by
        rcases h with h | h
        · simp only [List.map, List.mem_cons] at h
          rcases h with h | h
          · exact absurd h hpq
          · exact Or.inl h
        · exact Or.inr h
      cases hd : dictGet d q with
      | some v =>
        cases htr : pyTruthy v with
        | true =>
          simp only [vcpLoop, hd, htr, if_true]
          exact ih d inputs h2
        | false =>
          simp only [vcpLoop, hd, htr, Bool.false_eq_true, if_false]
          refine ih _ inputs.tail ?_
          rcases h2 with h2 | h2
          · exact Or.inl h2
          · exact Or.inr (by simp [dictGet_dictSet, hpq, h2])
      | none =>
        simp only [vcpLoop, hd]
        refine ih _ inputs.tail ?_
        rcases h2 with h2 | h2
        · exact Or.inl h2
        · exact Or.inr (by simp [dictGet_dictSet, hpq, h2])

/-- The loop prompts at most once per required parameter. -/
theorem vcpLoop_prompted_le (reqs : List (String × String)) (d : PyDict)
    (inputs : List String) :
    (vcpLoop reqs d inputs).2.1.length ≤ reqs.length := by
  induction reqs generalizing d inputs with
  | nil => simp [vcpLoop]
  | cons pd rest ih =>
    obtain ⟨q, desc⟩ := pd
    cases hd : dictGet d q with
    | some v =>
      cases htr : pyTruthy v with
      | true =>
        simp only [vcpLoop, hd, htr, if_true, List.length_cons]
        exact Nat.le_succ_of_le (ih d inputs)
      | false =>
        simp only [vcpLoop, hd, htr, Bool.false_eq_true, if_false, List.length_cons]
        exact Nat.succ_le_succ (ih _ inputs.tail)
    | none =>
      simp only [vcpLoop, hd, List.length_cons]
      exact Nat.succ_le_succ (ih _ inputs.tail)

/-- Writing one cell leaves every other cell unchanged. -/
theorem heapGet_set_ne (h : Heap) (a b : Nat) (d : PyDict) (hab : a ≠ b) :
    heapGet (h.set b d) a = heapGet h a := by
  induction h generalizing a b with
  | nil => simp [heapGet]
  | cons x xs ih =>
    cases b with
    | zero =>
      cases a with
      | zero => exact absurd rfl hab
      | succ a2 => simp [heapGet]
    | succ b2 =>
      cases a with
      | zero => simp [heapGet]
      | succ a2 =>
        simpa [heapGet] using ih a2 b2 (fun hc => hab (by rw [hc]))

/-- Writing a valid cell is observable at that cell. -/
theorem heapGet_set_self (h : Heap) (b : Nat) (d : PyDict) (hb : b < h.length) :
    heapGet (h.set b d) b = d := by
  induction h generalizing b with
  | nil => simp at hb
  | cons x xs ih =>
    cases b with
    | zero => simp [heapGet]
    | succ b2 =>
      simpa [heapGet] using ih b2 (by simpa using hb)

/-- Allocation at the end of the heap does not move existing cells. -/
theorem heapGet_append_lt (h : Heap) (x : PyDict) (a : Nat) (ha : a < h.length) :
    heapGet (h ++ [x]) a = heapGet h a := by
  induction h generalizing a with
  | nil => simp at ha
  | cons y ys ih =>
    cases a with
    | zero => simp [heapGet]
    | succ a2 =>
      simpa [heapGet] using ih a2 (by simpa using ha)

/-- The completion loop writes only the updated_params cell b. -/
theorem vcpLoopH_frame (reqs : List (String × String)) (h : Heap) (b : Nat)
    (inputs : List String) (a : Nat) (hab : a ≠ b) :
    heapGet (vcpLoopH reqs h b inputs) a = heapGet h a := by
  induction reqs generalizing h inputs with
  | nil => rfl
  | cons pd rest ih =>
    obtain ⟨q, desc⟩ := pd
    cases hd : dictGet (heapGet h b) q with
    | some v =>
      cases htr : pyTruthy v with
      | true =>
        simp only [vcpLoopH, hd, htr, if_true]
        exact ih h inputs
      | false =>
        simp only [vcpLoopH, hd, htr, Bool.false_eq_true, if_false]
        rw [ih _ inputs.tail, heapGet_set_ne _ _ _ _ hab]
    | none =>
      simp only [vcpLoopH, hd]
      rw [ih _ inputs.tail, heapGet_set_ne _ _ _ _ hab]

/-- At the updated_params cell, the heap loop computes exactly what the
functional loop computes on the contents of that cell. -/
theorem vcpLoopH_cell (reqs : List (String × String)) (h : Heap) (b : Nat)
    (inputs : List String) (hb : b < h.length) :
    heapGet (vcpLoopH reqs h b inputs) b = (vcpLoop reqs (heapGet h b) inputs).1 := by
  induction reqs generalizing h inputs with
  | nil => rfl
  | cons pd rest ih =>
    obtain ⟨q, desc⟩ := pd
    cases hd : dictGet (heapGet h b) q with
    | some v =>
      cases htr : pyTruthy v with
      | true =>
        simp only [vcpLoopH, vcpLoop, hd, htr, if_true]
        exact ih h inputs hb
      | false =>
        simp only [vcpLoopH, vcpLoop, hd, htr, Bool.false_eq_true, if_false]
        rw [ih _ inputs.tail (by simpa using hb),
          heapGet_set_self _ _ _ hb]
    | none =>
      simp only [vcpLoopH, vcpLoop, hd]
      rw [ih _ inputs.tail (by simpa using hb),
        heapGet_set_self _ _ _ hb]

/-- The heap cell holding the copy at the end of the heap. -/
theorem heapGet_append_self (h : Heap) (x : PyDict) :
    heapGet (h ++ [x]) h.length = x := by
  induction h with
  | nil => rfl
  | cons y ys ih =>
    show heapGet (ys ++ [x]) ys.length = x
    exact ih

/-- Whatever the shape of the params argument, the call runs the completion
loop on some starting dictionary (the bindings for a dict, the empty mapping
otherwise) and warns exactly when the argument was not a dict. -/
theorem vcp_unfold (intent : String) (params : PyVal) (inputs : List String) :
    ∃ d0, validate_and_complete_params intent params inputs
      = ⟨(vcpLoop (get_required_params intent) d0 inputs).1,
         (vcpLoop (get_required_params intent) d0 inputs).2.1,
         (vcpLoop (get_required_params intent) d0 inputs).2.2,
         !(isDictB params)⟩ := by
  cases params <;> exact ⟨_, rfl⟩

/-- Claim C3: parameter completion is idempotent on fully-specified
records.  When the mapping already holds a truthy value for every required
parameter of the intent, no prompt is issued, no conversation turn is
appended, the warning is not printed, and the returned mapping equals the
input; consequently a second application returns the same result as the
first. -/
theorem C3_param_completion_idempotent (intent : String) (d : PyDict)
    (inputs inputs2 : List String)
    (h : (get_required_params intent).all (fun pd => truthyOpt (dictGet d pd.1)) = true) :
    validate_and_complete_params intent (PyVal.dict d) inputs = ⟨d, [], [], false⟩ ∧
    validate_and_complete_params intent
        (PyVal.dict (validate_and_complete_params intent (PyVal.dict d) inputs).params)
        inputs2
      = validate_and_complete_params intent (PyVal.dict d) inputs := by
  have h2 : ∀ pd ∈ get_required_params intent, truthyOpt (dictGet d pd.1) = true :=
    fun pd hpd => List.all_eq_true.mp h pd hpd
  have hloop := vcpLoop_all_truthy (get_required_params intent) d inputs h2
  have hloop2 := vcpLoop_all_truthy (get_required_params intent) d inputs2 h2
  constructor
  · simp [validate_and_complete_params, hloop]
  · simp [validate_and_complete_params, hloop, hloop2]

/-- Witness for C3 at a concrete fully-specified record. -/
theorem C3_witness :
    (get_required_params "get_contributors").all
      (fun pd => truthyOpt
        (dictGet [("owner", PyVal.str "a"), ("repo", PyVal.str "b")] pd.1)) = true ∧
    validate_and_complete_params "get_contributors"
        (PyVal.dict [("owner", PyVal.str "a"), ("repo", PyVal.str "b")]) []
      = ⟨[("owner", PyVal.str "a"), ("repo", PyVal.str "b")], [], [], false⟩ :=
  ⟨by decide,
   (C3_param_completion_idempotent "get_contributors"
      [("owner", PyVal.str "a"), ("repo", PyVal.str "b")] [] [] (by decide)).1⟩

/-- Claim C7: postcondition of parameter completion.  For every intent and
every input value, the returned mapping holds every required parameter key
of that intent; a non-mapping input sets the warning flag (it is restarted
from the empty mapping); and no parameter is prompted twice (the number of
prompts is bounded by the number of required parameters). -/
theorem C7_vcp_postcondition (intent : String) (params : PyVal) (inputs : List String) :
    (∀ p, p ∈ (get_required_params intent).map Prod.fst →
      (dictGet (validate_and_complete_params intent params inputs).params p).isSome = true) ∧
    (isDictB params = false →
      (validate_and_complete_params intent params inputs).warned = true) ∧
    (validate_and_complete_params intent params inputs).prompted.length
      ≤ (get_required_params intent).length := by
  obtain ⟨d0, hd0⟩ := vcp_unfold intent params inputs
  refine ⟨?_, ?_, ?_⟩
  · intro p hp
    rw [hd0]
    exact vcpLoop_isSome _ d0 inputs p (Or.inl hp)
  · intro hnd
    rw [hd0]
    simp [hnd]
  · rw [hd0]
    exact vcpLoop_prompted_le _ d0 inputs

/-- Witness for C7: a list-shaped params argument for get_contributors is
reset with a warning and both required keys come back filled. -/
theorem C7_witness :
    ("owner" ∈ (get_required_params "get_contributors").map Prod.fst) ∧
    (dictGet (validate_and_complete_params "get_contributors"
        (PyVal.list []) ["o"]).params "owner").isSome = true ∧
    (validate_and_complete_params "get_contributors" (PyVal.list []) ["o"]).warned = true :=
  ⟨by decide,
   (C7_vcp_postcondition "get_contributors" (PyVal.list []) ["o"]).1 "owner" (by decide),
   (C7_vcp_postcondition "get_contributors" (PyVal.list []) ["o"]).2.1 (by decide)⟩

/-- Claim C10: validate_and_complete_params never mutates the mapping it is
given.  On the heap model, for a dictionary argument at any valid address,
the call leaves the cell of the caller untouched, returns a different (fresh)
address, and the fresh cell holds exactly the functional result of the
completion: the fills go into the copy made at src/cli.py line 50. -/
theorem C10_no_mutation (intent : String) (h : Heap) (a : Nat) (inputs : List String)
    (ha : a < h.length) :
    heapGet (validate_and_complete_params_heap intent h a inputs).1 a = heapGet h a ∧
    (validate_and_complete_params_heap intent h a inputs).2 ≠ a ∧
    heapGet (validate_and_complete_params_heap intent h a inputs).1
        (validate_and_complete_params_heap intent h a inputs).2
      = (validate_and_complete_params intent (PyVal.dict (heapGet h a)) inputs).params := by
  have hne : a ≠ h.length := Nat.ne_of_lt ha
  refine ⟨?_, fun hc => hne hc.symm, ?_⟩
  · show heapGet (vcpLoopH (get_required_params intent)
        (h ++ [heapGet h a]) h.length inputs) a = heapGet h a
    rw [vcpLoopH_frame _ _ _ _ a hne, heapGet_append_lt _ _ _ ha]
  · show heapGet (vcpLoopH (get_required_params intent)
        (h ++ [heapGet h a]) h.length inputs) h.length
      = (validate_and_complete_params intent (PyVal.dict (heapGet h a)) inputs).params
    rw [vcpLoopH_cell _ _ _ _ (by simp), heapGet_append_self]
    rfl

/-- Witness for C10 at a concrete one-cell heap. -/
theorem C10_witness :
    0 < ([[("owner", PyVal.str "x")]] : Heap).length ∧
    (heapGet (validate_and_complete_params_heap "search_repositories"
        [[("owner", PyVal.str "x")]] 0 ["ml"]).1 0
      = heapGet [[("owner", PyVal.str "x")]] 0 ∧
    (validate_and_complete_params_heap "search_repositories"
        [[("owner", PyVal.str "x")]] 0 ["ml"]).2 ≠ 0 ∧
    heapGet (validate_and_complete_params_heap "search_repositories"
          [[("owner", PyVal.str "x")]] 0 ["ml"]).1
        (validate_and_complete_params_heap "search_repositories"
          [[("owner", PyVal.str "x")]] 0 ["ml"]).2
      = (validate_and_complete_params "search_repositories"
          (PyVal.dict (heapGet [[("owner", PyVal.str "x")]] 0)) ["ml"]).params) :=
  ⟨by decide,
   C10_no_mutation "search_repositories" [[("owner", PyVal.str "x")]] 0 ["ml"] (by decide)⟩

/-- The deterministic fallback always returns a two-field record whose
intent is one of the three nonempty sentinel strings. -/
theorem fallback_shape (query : List Char) :
    ∃ i ps, fallback_intent_detection query
        = PyVal.dict [("intent", PyVal.str i), ("parameters", ps)] ∧ i ≠ "" := by
  dsimp only [fallback_intent_detection]
  split
  · split
    · split
      · exact ⟨_, _, rfl, by decide⟩
      · exact ⟨_, _, rfl, by decide⟩
    · exact ⟨_, _, rfl, by decide⟩
  · split
    · exact ⟨_, _, rfl, by decide⟩
    · exact ⟨_, _, rfl, by decide⟩

/-- Claim C1 counterexample: the query "repos of octocat" matches the
fast-path pattern (repo term plus "of "), yet classification produces the
sentinel intent "unknown", not list_user_repositories: the fallback only
emits list_user_repositories when an action term is also present. -/
theorem C1_counterexample :
    is_list_repos_query ("repos of octocat".toList) = true ∧
    classify_stage (Except.error "transport failure") ("repos of octocat".toList)
      = PyVal.dict [("intent", PyVal.str "unknown"), ("parameters", PyVal.dict [])] :=
  ⟨by decide, rfl⟩

/-- Claim C1 (amended): every query matching the fast-path pattern bypasses
the remote completion call — the classification result equals the
deterministic fallback and does not depend on the LLM oracle — and when the
query additionally contains an action term the produced intent is
list_user_repositories.  (A query matching only via repo term + "of " may
instead yield search_repositories or unknown.) -/
theorem C1_fastpath_amended (query : List Char) (llm llm2 : Except String PyVal)
    (h : is_list_repos_query query = true) :
    classify_stage llm query = fallback_intent_detection query ∧
    classify_stage llm query = classify_stage llm2 query ∧
    (action_terms.any (fun t => hasSub (pyLower query) t) = true →
      pyGetD (classify_stage llm query) "intent"
        = PyVal.str "list_user_repositories") := by
  have hcl : ∀ l : Except String PyVal,
      classify_stage l query = fallback_intent_detection query := by
    intro l
    simp [classify_stage, h]
  refine ⟨hcl llm, (hcl llm).trans (hcl llm2).symm, ?_⟩
  intro hact
  rw [hcl llm]
  have hrepo : repo_terms.any (fun t => hasSub (pyLower query) t) = true := by
    dsimp only [is_list_repos_query] at h
    rw [Bool.or_eq_true, Bool.and_eq_true, Bool.and_eq_true] at h
    rcases h with h2 | h2
    · exact h2.1
    · exact h2.1
  dsimp only [fallback_intent_detection]
  rw [hact, hrepo]
  simp only [Bool.and_self, if_true]
  split
  · split
    · rfl
    · rfl
  · rfl

/-- Witness for the amended C1 on the query "list repos of octocat". -/
theorem C1_witness :
    is_list_repos_query ("list repos of octocat".toList) = true ∧
    action_terms.any (fun t => hasSub (pyLower ("list repos of octocat".toList)) t) = true ∧
    pyGetD (classify_stage (Except.error "down") ("list repos of octocat".toList)) "intent"
      = PyVal.str "list_user_repositories" :=
  ⟨by decide, by decide,
   (C1_fastpath_amended ("list repos of octocat".toList)
      (Except.error "down") (Except.ok PyVal.none) (by decide)).2.2 (by decide)⟩

/-- Claim C2 counterexample: when the remote completion returns a mapping
that lacks an intent field — a dictionary, so the isinstance guard at
src/cli.py line 86 accepts it — the classification stage passes it through
unchanged, so its intent field is absent rather than a nonempty string. -/
theorem C2_counterexample :
    classify_stage (Except.ok (PyVal.dict [("foo", PyVal.int 1)])) ("weather today".toList)
      = PyVal.dict [("foo", PyVal.int 1)] ∧
    dictGet [("foo", PyVal.int 1)] "intent" = Option.none :=
  ⟨rfl, rfl⟩

/-- Claim C2 (amended): the classification stage never raises and always
yields a mapping; a remote failure or a non-mapping remote result degrades
to the deterministic fallback; the fallback always carries a nonempty
intent, and yields exactly the sentinel "unknown" with empty parameters
when neither pattern is recognized.  However, a mapping returned by the
remote completion is passed through unchanged, even when it lacks an intent
field. -/
theorem C2_classification_amended (query : List Char) (llm : Except String PyVal) :
    (∃ d, classify_stage llm query = PyVal.dict d) ∧
    (∀ e, llm = Except.error e →
      classify_stage llm query = fallback_intent_detection query) ∧
    (∀ v, llm = Except.ok v → isDictB v = false →
      classify_stage llm query = fallback_intent_detection query) ∧
    hasNonemptyIntent (fallback_intent_detection query) = true ∧
    ((action_terms.any (fun t => hasSub (pyLower query) t)
        && repo_terms.any (fun t => hasSub (pyLower query) t)) = false →
      ((["search", "find"].map String.toList).any (fun t => hasSub (pyLower query) t)
        && repo_terms.any (fun t => hasSub (pyLower query) t)) = false →
      fallback_intent_detection query
        = PyVal.dict [("intent", PyVal.str "unknown"), ("parameters", PyVal.dict [])]) := by
  obtain ⟨i, ps, hfb, hi⟩ := fallback_shape query
  have hcases : classify_stage llm query = fallback_intent_detection query ∨
      ∃ d, llm = Except.ok (PyVal.dict d) ∧ classify_stage llm query = PyVal.dict d := by
    by_cases hf : is_list_repos_query query = true
    · left
      simp [classify_stage, hf]
    · cases llm with
      | error e =>
        left
        simp [classify_stage, hf]
      | ok v =>
        cases v with
        | dict d =>
          right
          exact ⟨d, rfl, by simp [classify_stage, hf]⟩
        | none => left; simp [classify_stage, hf]
        | bool b => left; simp [classify_stage, hf]
        | int n => left; simp [classify_stage, hf]
        | str s => left; simp [classify_stage, hf]
        | list l => left; simp [classify_stage, hf]
  refine ⟨?_, ?_, ?_, ?_, ?_⟩
  · rcases hcases with hc | ⟨d, _, hc⟩
    · exact ⟨_, by rw [hc]; exact hfb⟩
    · exact ⟨d, hc⟩
  · intro e he
    rcases hcases with hc | ⟨d, hd, _⟩
    · exact hc
    · rw [he] at hd
      exact absurd hd (by simp)
  · intro v hv hnd
    rcases hcases with hc | ⟨d, hd, _⟩
    · exact hc
    · rw [hv] at hd
      have : v = PyVal.dict d := by
        cases hd
        rfl
      rw [this] at hnd
      simp [isDictB] at hnd
  · rw [hfb]
    simp only [hasNonemptyIntent, dictGet, List.find?]
    have : (("intent" : String) == "intent") = true := by decide
    simp [this, hi]
  · intro h1 h2
    dsimp only [fallback_intent_detection]
    rw [h1, h2]
    rfl

/-- Witness for the amended C2: a transport failure on a pattern-free query
degrades to the fallback, which answers the nonempty sentinel "unknown"
with empty parameters. -/
theorem C2_witness :
    classify_stage (Except.error "down") ("weather today".toList)
      = fallback_intent_detection ("weather today".toList) ∧
    hasNonemptyIntent (fallback_intent_detection ("weather today".toList)) = true ∧
    fallback_intent_detection ("weather today".toList)
      = PyVal.dict [("intent", PyVal.str "unknown"), ("parameters", PyVal.dict [])] :=
  ⟨(C2_classification_amended ("weather today".toList) (Except.error "down")).2.1 "down" rfl,
   (C2_classification_amended ("weather today".toList) (Except.error "down")).2.2.2.1,
   (C2_classification_amended ("weather today".toList) (Except.error "down")).2.2.2.2
     (by decide) (by decide)⟩

/-- Claim C5: dispatch alias normalization.  For every parameter mapping
(and any further fields of the record) and every collaborator, dispatching
with intent get_repositories, get_repos or get_user_repositories gives
exactly the same result as dispatching the identical record with intent
list_user_repositories. -/
theorem C5_dispatch_alias (c : Collab) (rest : PyDict) :
    execute_intent c (("intent", PyVal.str "get_repositories") :: rest)
      = execute_intent c (("intent", PyVal.str "list_user_repositories") :: rest) ∧
    execute_intent c (("intent", PyVal.str "get_repos") :: rest)
      = execute_intent c (("intent", PyVal.str "list_user_repositories") :: rest) ∧
    execute_intent c (("intent", PyVal.str "get_user_repositories") :: rest)
      = execute_intent c (("intent", PyVal.str "list_user_repositories") :: rest) :=
  ⟨rfl, rfl, rfl⟩

/-- Claim C6: on the query "search repositories machine learning" the
fallback emits search_repositories, but the query parameter is
"itories machine learning", not "machine learning": replace("repos", "")
runs before replace("repositories", "") and eats the front of the word
"repositories", leaving the fragment "itories" behind. -/
theorem C6_fallback_search_behavior :
    fallback_intent_detection ("search repositories machine learning".toList)
      = PyVal.dict [("intent", PyVal.str "search_repositories"),
          ("parameters", PyVal.dict [("query", PyVal.str "itories machine learning")])] ∧
    "itories machine learning" ≠ "machine learning" :=
  ⟨rfl, by decide⟩

/-- Unfolding of the list_user_repositories branch of execute_intent for a
dictionary parameters field: everything up to the truthiness test on the
username reduces definitionally. -/
theorem exec_list_user_unfold (c : Collab) (p : PyDict) :
    execute_intent c [("intent", PyVal.str "list_user_repositories"),
        ("parameters", PyVal.dict p)]
      = (match (if !(pyTruthy ((dictGet p "username").getD PyVal.none)) then
            Except.ok (PyVal.dict [("error", PyVal.str "No username provided")])
          else
            Except.ok (match listReposInner c ((dictGet p "username").getD PyVal.none) with
              | Except.ok v => v
              | Except.error e => PyVal.dict [("error", PyVal.str e)])) with
        | Except.ok v => v
        | Except.error e => PyVal.dict [("error", PyVal.str e)]) := rfl

/-- Same unfolding for the synonymous get_user_repositories intent. -/
theorem exec_get_user_unfold (c : Collab) (p : PyDict) :
    execute_intent c [("intent", PyVal.str "get_user_repositories"),
        ("parameters", PyVal.dict p)]
      = (match (if !(pyTruthy ((dictGet p "username").getD PyVal.none)) then
            Except.ok (PyVal.dict [("error", PyVal.str "No username provided")])
          else
            Except.ok (match listReposInner c ((dictGet p "username").getD PyVal.none) with
              | Except.ok v => v
              | Except.error e => PyVal.dict [("error", PyVal.str e)])) with
        | Except.ok v => v
        | Except.error e => PyVal.dict [("error", PyVal.str e)]) := rfl

/-- Unfolding of the get_commit_history branch for a dictionary parameters
field: the count coercion happens before the GitHub call. -/
theorem exec_commit_unfold (c : Collab) (p : PyDict) :
    execute_intent c [("intent", PyVal.str "get_commit_history"),
        ("parameters", PyVal.dict p)]
      = (match (do
            let count ← pyIntCoerce ((dictGet p "count").getD (PyVal.int 10))
            let data ← c.get_commit_history ((dictGet p "owner").getD PyVal.none)
                ((dictGet p "repo").getD PyVal.none)
                ((dictGet p "branch").getD (PyVal.str "main")) count
            let _ ← c.render_commits data
            Except.ok (PyVal.dict [("commits", data)]) : Except String PyVal) with
        | Except.ok v => v
        | Except.error e => PyVal.dict [("error", PyVal.str e)]) := rfl

/-- Unfolding of the get_recent_merged_prs branch for a dictionary
parameters field. -/
theorem exec_prs_unfold (c : Collab) (p : PyDict) :
    execute_intent c [("intent", PyVal.str "get_recent_merged_prs"),
        ("parameters", PyVal.dict p)]
      = (match (do
            let count ← pyIntCoerce ((dictGet p "count").getD (PyVal.int 10))
            let data ← c.get_recent_merged_prs ((dictGet p "owner").getD PyVal.none)
                ((dictGet p "repo").getD PyVal.none) count
            let _ ← c.render_prs data
            Except.ok (PyVal.dict [("pull_requests", data)]) : Except String PyVal) with
        | Except.ok v => v
        | Except.error e => PyVal.dict [("error", PyVal.str e)]) := rfl

/-- A concrete collaborator whose data source is offline except for an
account with no repositories; used to instantiate the dispatch theorems. -/
def witCollab : Collab where
  get_repository_contributors := fun _ _ => Except.error "offline"
  get_commit_history := fun _ _ _ _ => Except.error "offline"
  get_recent_merged_prs := fun _ _ _ => Except.error "offline"
  get_user_repositories := fun _ => Except.ok (PyVal.list [])
  search_repositories := fun _ _ => Except.error "offline"
  render_contributors := fun _ => Except.ok ()
  render_commits := fun _ => Except.ok ()
  render_prs := fun _ => Except.ok ()
  render_repos := fun _ => Except.ok ()
  render_search := fun _ => Except.ok ()

/-- Claim C8: dispatch short-circuits.  An unknown-intent record returns
the Unknown-intent error envelope (with the query field of the record, default
empty) without consulting any collaborator; a repository-listing record
with a missing or falsy username returns the No-username error without a
network call (both results are independent of the collaborator, which does
not occur in them); and an empty repository list from the data source comes
back as a repositories/message envelope that carries no error key. -/
theorem C8_dispatch_short_circuits (c : Collab) (rest : PyDict) (p : PyDict) (u : String) :
    execute_intent c (("intent", PyVal.str "unknown") :: rest)
      = PyVal.dict [("error", PyVal.str "Unknown intent"),
          ("query", (dictGet (("intent", PyVal.str "unknown") :: rest) "query").getD
            (PyVal.str ""))] ∧
    (truthyOpt (dictGet p "username") = false →
      execute_intent c [("intent", PyVal.str "list_user_repositories"),
          ("parameters", PyVal.dict p)]
        = PyVal.dict [("error", PyVal.str "No username provided")] ∧
      execute_intent c [("intent", PyVal.str "get_user_repositories"),
          ("parameters", PyVal.dict p)]
        = PyVal.dict [("error", PyVal.str "No username provided")]) ∧
    (u ≠ "" → c.get_user_repositories (PyVal.str u) = Except.ok (PyVal.list []) →
      execute_intent c [("intent", PyVal.str "list_user_repositories"),
          ("parameters", PyVal.dict [("username", PyVal.str u)])]
        = PyVal.dict [("repositories", PyVal.list []),
            ("message", PyVal.str ("No repositories found for " ++ u))] ∧
      hasErrKey (execute_intent c [("intent", PyVal.str "list_user_repositories"),
          ("parameters", PyVal.dict [("username", PyVal.str u)])]) = false) := by
  refine ⟨rfl, ?_, ?_⟩
  · intro hu
    have hu2 : pyTruthy ((dictGet p "username").getD PyVal.none) = false := hu
    constructor
    · rw [exec_list_user_unfold, hu2]
      rfl
    · rw [exec_get_user_unfold, hu2]
      rfl
  · intro hne hresp
    have hlook : (dictGet [("username", PyVal.str u)] "username").getD PyVal.none
        = PyVal.str u := rfl
    have ht : pyTruthy ((dictGet [("username", PyVal.str u)] "username").getD PyVal.none)
        = true := by
      rw [hlook]
      simpa [pyTruthy] using hne
    have hres : execute_intent c [("intent", PyVal.str "list_user_repositories"),
        ("parameters", PyVal.dict [("username", PyVal.str u)])]
      = PyVal.dict [("repositories", PyVal.list []),
          ("message", PyVal.str ("No repositories found for " ++ u))] := by
      rw [exec_list_user_unfold, ht]
      have hinner : listReposInner c (PyVal.str u)
          = Except.ok (PyVal.dict [("repositories", PyVal.list []),
              ("message", PyVal.str ("No repositories found for " ++ u))]) := by
        rw [listReposInner]
        rw [hresp]
        rfl
      rw [hlook, hinner]
      rfl
    exact ⟨hres, by rw [hres]; rfl⟩

/-- Witness for C8 at concrete inputs, with the offline collaborator whose
user-repository call answers the empty list. -/
theorem C8_witness :
    execute_intent witCollab [("intent", PyVal.str "unknown")]
      = PyVal.dict [("error", PyVal.str "Unknown intent"), ("query", PyVal.str "")] ∧
    execute_intent witCollab [("intent", PyVal.str "list_user_repositories"),
        ("parameters", PyVal.dict [("username", PyVal.str "")])]
      = PyVal.dict [("error", PyVal.str "No username provided")] ∧
    execute_intent witCollab [("intent", PyVal.str "list_user_repositories"),
        ("parameters", PyVal.dict [("username", PyVal.str "octocat")])]
      = PyVal.dict [("repositories", PyVal.list []),
          ("message", PyVal.str ("No repositories found for " ++ "octocat"))] :=
  ⟨(C8_dispatch_short_circuits witCollab [] [] "x").1,
   ((C8_dispatch_short_circuits witCollab [] [("username", PyVal.str "")] "x").2.1 rfl).1,
   ((C8_dispatch_short_circuits witCollab [] [] "octocat").2.2 (by decide) rfl).1⟩

/-- Claim C9: count handling in the get_commit_history and
get_recent_merged_prs branches.  A record without a count parameter
dispatches exactly like the same record with count set to the integer 10;
and a record whose count is a non-numeric string does not fall back to the
default but yields the int() conversion error, caught at the dispatch
boundary and returned as an error envelope, for every collaborator. -/
theorem C9_count_handling (c : Collab) (p : PyDict) (s : String) :
    (dictGet p "count" = Option.none →
      execute_intent c [("intent", PyVal.str "get_commit_history"),
          ("parameters", PyVal.dict p)]
        = execute_intent c [("intent", PyVal.str "get_commit_history"),
            ("parameters", PyVal.dict (dictSet p "count" (PyVal.int 10)))] ∧
      execute_intent c [("intent", PyVal.str "get_recent_merged_prs"),
          ("parameters", PyVal.dict p)]
        = execute_intent c [("intent", PyVal.str "get_recent_merged_prs"),
            ("parameters", PyVal.dict (dictSet p "count" (PyVal.int 10)))]) ∧
    (dictGet p "count" = Option.some (PyVal.str s) → pyIntOfStr s = Option.none →
      execute_intent c [("intent", PyVal.str "get_commit_history"),
          ("parameters", PyVal.dict p)]
        = PyVal.dict [("error",
            PyVal.str ("invalid literal for int() with base 10: " ++ s))] ∧
      execute_intent c [("intent", PyVal.str "get_recent_merged_prs"),
          ("parameters", PyVal.dict p)]
        = PyVal.dict [("error",
            PyVal.str ("invalid literal for int() with base 10: " ++ s))]) := by
  constructor
  · intro hc
    have h1 : dictGet (dictSet p "count" (PyVal.int 10)) "count"
        = Option.some (PyVal.int 10) := by
      rw [dictGet_dictSet, if_pos rfl]
    have h2 : dictGet (dictSet p "count" (PyVal.int 10)) "owner" = dictGet p "owner" := by
      rw [dictGet_dictSet, if_neg (by decide)]
    have h3 : dictGet (dictSet p "count" (PyVal.int 10)) "repo" = dictGet p "repo" := by
      rw [dictGet_dictSet, if_neg (by decide)]
    have h4 : dictGet (dictSet p "count" (PyVal.int 10)) "branch" = dictGet p "branch" := by
      rw [dictGet_dictSet, if_neg (by decide)]
    constructor
    · rw [exec_commit_unfold, exec_commit_unfold, hc, h1, h2, h3, h4]
      rfl
    · rw [exec_prs_unfold, exec_prs_unfold, hc, h1, h2, h3]
      rfl
  · intro hc hbad
    have hcoerce : pyIntCoerce ((dictGet p "count").getD (PyVal.int 10))
        = Except.error ("invalid literal for int() with base 10: " ++ s) := by
      rw [hc]
      simp [pyIntCoerce, hbad]
    constructor
    · rw [exec_commit_unfold, hcoerce]
      rfl
    · rw [exec_prs_unfold, hcoerce]
      rfl

/-- Witness for C9: a record with no count dispatches like one with count
10, and the non-numeric count "ten" produces the conversion-error
envelope. -/
theorem C9_witness :
    (execute_intent witCollab [("intent", PyVal.str "get_commit_history"),
        ("parameters", PyVal.dict [("owner", PyVal.str "o")])]
      = execute_intent witCollab [("intent", PyVal.str "get_commit_history"),
          ("parameters", PyVal.dict
            (dictSet [("owner", PyVal.str "o")] "count" (PyVal.int 10)))]) ∧
    execute_intent witCollab [("intent", PyVal.str "get_recent_merged_prs"),
        ("parameters", PyVal.dict [("count", PyVal.str "ten")])]
      = PyVal.dict [("error",
          PyVal.str ("invalid literal for int() with base 10: " ++ "ten"))] :=
  ⟨((C9_count_handling witCollab [("owner", PyVal.str "o")] "x").1 rfl).1,
   ((C9_count_handling witCollab [("count", PyVal.str "ten")] "ten").2 rfl (by decide)).2⟩

/-- Specification of the filter loop: when it succeeds, every returned
record is a detail fetch of a page item whose merged_at was truthy, so
under the detail-consistency hypothesis every returned record has a truthy
merged_at, and the output is never longer than the page. -/
theorem grmpLoop_spec (getFn : String → PyDict → Except String PyVal)
    (owner repo : String) (l : List PyVal) (out : List PyVal)
    (hdet : ∀ pr ∈ l, ∀ n, pyGetItem pr "number" = Except.ok n →
      ∀ v, getFn ("/repos/" ++ owner ++ "/" ++ repo ++ "/pulls/" ++ pyStr n) []
          = Except.ok v →
      pyTruthy (pyGetD v "merged_at") = true)
    (hrun : grmpLoop getFn owner repo l = Except.ok out) :
    (∀ r ∈ out, pyTruthy (pyGetD r "merged_at") = true) ∧ out.length ≤ l.length := by
  induction l generalizing out with
  | nil =>
    rw [grmpLoop] at hrun
    cases hrun
    simp
  | cons pr rest ih =>
    have hdetrest : ∀ q ∈ rest, ∀ n, pyGetItem q "number" = Except.ok n →
        ∀ v, getFn ("/repos/" ++ owner ++ "/" ++ repo ++ "/pulls/" ++ pyStr n) []
            = Except.ok v →
        pyTruthy (pyGetD v "merged_at") = true :=
      fun q hq => hdet q (List.mem_cons_of_mem _ hq)
    rw [grmpLoop] at hrun
    split at hrun
    · exact Except.noConfusion hrun
    · rename_i m hm
      split at hrun
      · split at hrun
        · exact Except.noConfusion hrun
        · rename_i n hn
          split at hrun
          · exact Except.noConfusion hrun
          · rename_i v hv
            split at hrun
            · exact Except.noConfusion hrun
            · rename_i tail htail
              cases hrun
              obtain ⟨ih1, ih2⟩ := ih tail hdetrest htail
              refine ⟨?_, Nat.succ_le_succ ih2⟩
              intro r hr
              rcases List.mem_cons.mp hr with hr | hr
              · subst hr
                exact hdet pr (List.mem_cons_self _ _) n hn r hv
              · exact ih1 r hr
      · obtain ⟨ih1, ih2⟩ := ih out hdetrest hrun
        exact ⟨ih1, Nat.le_succ_of_le ih2⟩

/-- Claim C4: get_recent_merged_prs returns only merged records.  Given the
page of closed pull requests the paged fetch answers, and given that the
per-item detail fetch is consistent (a detail record fetched for a page
item with truthy merged_at itself carries a truthy merged_at, as the GitHub
API guarantees), every record in a successfully returned list has a truthy
merge timestamp, the list is no longer than the fetched page, and hence no
longer than the requested page size when the page honors it. -/
theorem C4_merged_prs_filter (getFn : String → PyDict → Except String PyVal)
    (owner repo : String) (count : Int) (page out : List PyVal)
    (hpage : getFn ("/repos/" ++ owner ++ "/" ++ repo ++ "/pulls")
        [("state", PyVal.str "closed"), ("per_page", PyVal.int count)]
      = Except.ok (PyVal.list page))
    (hdet : ∀ pr ∈ page, ∀ n, pyGetItem pr "number" = Except.ok n →
      ∀ v, getFn ("/repos/" ++ owner ++ "/" ++ repo ++ "/pulls/" ++ pyStr n) []
          = Except.ok v →
      pyTruthy (pyGetD v "merged_at") = true)
    (hout : get_recent_merged_prs getFn owner repo count = Except.ok (PyVal.list out)) :
    (∀ r ∈ out, pyTruthy (pyGetD r "merged_at") = true) ∧
    out.length ≤ page.length ∧
    ((page.length : Int) ≤ count → (out.length : Int) ≤ count) := by
  rw [get_recent_merged_prs, hpage] at hout
  dsimp only at hout
  have hiter : pyIter (PyVal.list page) = Except.ok page := rfl
  rw [hiter] at hout
  dsimp only at hout
  have hrun : grmpLoop getFn owner repo page = Except.ok out := by
    cases hg : grmpLoop getFn owner repo page with
    | error e =>
      rw [hg] at hout
      exact Except.noConfusion hout
    | ok merged =>
      rw [hg] at hout
      cases hout
      rfl
  obtain ⟨h1, h2⟩ := grmpLoop_spec getFn owner repo page out hdet hrun
  refine ⟨h1, h2, fun hpc => le_trans ?_ hpc⟩
  exact_mod_cast h2

/-- Concrete full-detail record for the merged pull request number 1. -/
def witDetail : PyVal :=
  PyVal.dict [("number", PyVal.int 1),
    ("merged_at", PyVal.str "2024-01-01T00:00:00Z"), ("title", PyVal.str "fix")]

/-- Concrete page of closed pull requests: one merged, one closed without
merging. -/
def witPage : List PyVal :=
  [PyVal.dict [("number", PyVal.int 1), ("merged_at", PyVal.str "2024-01-01T00:00:00Z")],
   PyVal.dict [("number", PyVal.int 2), ("merged_at", PyVal.none)]]

/-- Concrete _get oracle: list requests (with parameters) answer the page,
detail requests (no parameters) answer the merged detail record. -/
def witGetFn : String → PyDict → Except String PyVal := fun _ ps =>
  if ps.isEmpty then Except.ok witDetail else Except.ok (PyVal.list witPage)

/-- Witness for C4: on a page with one unmerged item, the returned list
holds the single merged detail record and is shorter than the page. -/
theorem C4_witness :
    (∀ r ∈ [witDetail], pyTruthy (pyGetD r "merged_at") = true) ∧
    ([witDetail].length ≤ witPage.length) ∧
    ((witPage.length : Int) ≤ 2 → (([witDetail] : List PyVal).length : Int) ≤ 2) := by
  refine C4_merged_prs_filter witGetFn "o" "r" 2 witPage [witDetail] rfl ?_ rfl
  intro pr hpr n hn v hv
  have h2 : Except.ok witDetail = Except.ok v := hv
  cases h2
  rfl
